import Mathlib

/-!
Verification development for the `not-onlyswaps` cross-chain swap solver.

The definitions below are a shallow embedding of the TypeScript sources:

* `src/not-only-swaps/src/util.ts` — `normalizeChainId`, `toRequestId`;
* `src/not-only-swaps/src/model.ts` (and the extended model with optional
  `conditions`) — the data model;
* `src/not-only-swaps/src/solver.ts` — the simple (v1) evaluator;
* `src/not-only-swaps/src/executor.ts` — the trade executor;
* the `SolverV2` module (condition evaluator, risk manager, profit
  optimizer, gas-price estimator, scored evaluator).

Numbers: all on-chain amounts and fees are `uint256` big integers and are
embedded as `Nat` (the solver only subtracts under an explicit `≥` guard).
JavaScript `number` values produced by `Number(bigint)` are embedded through
`roundFloat64`, the exact rounding a 64-bit IEEE-754 double performs on a
natural number.  Addresses and request ids are JavaScript strings; the only
string operation the solver uses on them is `toLowerCase`, embedded as
`lowerStr` (all relevant strings are ASCII hex, where JavaScript
`toLowerCase` acts exactly character-by-character like `Char.toLower`).

JavaScript `Map` objects are embedded as association lists with the
`jsGet`/`jsSet` operations (a JS map holds at most one binding per key;
`jsSet` replaces the first binding in place or appends a fresh one, which
is observationally equivalent for every lookup).
-/

namespace NotOnlySwaps

/-- JavaScript `String.prototype.toLowerCase`, restricted to ASCII data
(every address and request id handled by the solver is ASCII hex, and on
ASCII the JS function lowers each character independently, exactly like
`Char.toLower`). -/
def lowerStr (s : String) : String := String.mk (s.data.map Char.toLower)

/-- Fuel-driven floor of the base-2 logarithm (`log2Fuel fuel n` is
`⌊log₂ n⌋` for `n ≥ 1` whenever `n < 2 ^ fuel`); used to locate the binade
of a number when rounding it to a 64-bit float.  The fuel makes the
definition structurally recursive. -/
def log2Fuel : Nat → Nat → Nat
  | 0, _ => 0
  | fuel + 1, n => if n < 2 then 0 else log2Fuel fuel (n / 2) + 1

/-- Rounding of a natural number to the nearest IEEE-754 double
(round-to-nearest, ties-to-even), returned as the natural number the double
denotes.  This is what the JavaScript conversion `Number(bigint)` performs
for the 256-bit non-negative values appearing in the solver.  Below `2^53`
every natural number is exactly representable and the conversion is the
identity; above, the value is rounded to a multiple of the unit in the last
place of its binade. -/
def roundFloat64 (n : Nat) : Nat :=
  if n < 2 ^ 53 then n
  else
    let e := log2Fuel 256 n
    let ulp := 2 ^ (e - 52)
    let q := n / ulp
    let r := n % ulp
    if 2 * r < ulp then q * ulp
    else if ulp < 2 * r then (q + 1) * ulp
    else if q % 2 = 0 then q * ulp else (q + 1) * ulp

/-- Embedding of `normalizeChainId` from `src/not-only-swaps/src/util.ts`:
`Number(chainId & BigInt('0xFFFFFFFFFFFFFFFF'))`.  The bitwise mask is
`· % 2 ^ 64`; the JavaScript `Number(·)` conversion is `roundFloat64`. -/
def normalizeChainId (chainId : Nat) : Nat := roundFloat64 (chainId % 2 ^ 64)

/-- Embedding of `toRequestId` from `src/not-only-swaps/src/util.ts` on string input:
strip a leading `0x`, left-pad with `'0'` to 64 characters, keep the first
64 characters, lower-case, and prefix `0x`. -/
def toRequestId (hex : String) : String :=
  let cs := hex.data
  let hexString := if cs.take 2 = ['0', 'x'] then cs.drop 2 else cs
  let padded := (List.replicate (64 - hexString.length) '0' ++ hexString).take 64
  "0x" ++ lowerStr (String.mk padded)

/-- Embedding of `SwapRequestParameters` from `model.ts`: the wire shape of a request
stored by the on-chain router. -/
structure SwapRequestParameters where
  srcChainId : Nat
  dstChainId : Nat
  sender : String
  recipient : String
  tokenIn : String
  tokenOut : String
  amountOut : Nat
  verificationFee : Nat
  solverFee : Nat
  nonce : Nat
  executed : Bool
  requestedAt : Nat
deriving DecidableEq, Repr

/-- Embedding of `Condition` from the extended `model.ts`.  Its `params` field is a
`Record<string, any>` holding oracle endpoints, timestamps and arbitrary
closures; condition evaluation is network- and wall-clock-dependent and is
therefore abstracted as an oracle parameter of the v2 evaluator (see
`calculateTradesV2`).  Only the tag and operator are carried here. -/
structure Condition where
  ctype : String
  operator : String
deriving DecidableEq, Repr

/-- Embedding of `Transfer` from the extended `model.ts`.  The optional `conditions`
field is embedded as a list, the absent case being the empty list (the v2
evaluator treats `undefined` and `[]` identically: both mean "no condition
check").  The optional `maxWaitTime`/`priority` fields are read by no code
under verification and are omitted. -/
structure Transfer where
  requestId : String
  params : SwapRequestParameters
  conditions : List Condition := []
deriving DecidableEq, Repr

/-- Embedding of `ChainState` from `model.ts`.  `tokenBalances` is a JS `Map` from token
address to balance, embedded as an association list. -/
structure ChainState where
  nativeBalance : Nat
  tokenBalances : List (String × Nat)
  transfers : List Transfer
  alreadyFulfilled : List String
deriving DecidableEq, Repr

/-- Embedding of `Trade` from `model.ts`: the decision record the evaluator hands to the
executor. -/
structure Trade where
  requestId : String
  nonce : Nat
  tokenInAddr : String
  tokenOutAddr : String
  srcChainId : Nat
  destChainId : Nat
  senderAddr : String
  recipientAddr : String
  swapAmount : Nat
deriving DecidableEq, Repr

/-- JavaScript `Map.prototype.get` on an association list (a JS map holds
at most one binding per key, so first-match lookup is exact). -/
def jsGet {α β : Type} [DecidableEq α] : List (α × β) → α → Option β
  | [], _ => none
  | (k', v) :: rest, k => if k' = k then some v else jsGet rest k

/-- JavaScript `Map.prototype.set` on an association list: replace the
first binding of the key in place, or append a fresh binding. -/
def jsSet {α β : Type} [DecidableEq α] : List (α × β) → α → β → List (α × β)
  | [], k, v => [(k, v)]
  | (k', v') :: rest, k, v =>
    if k' = k then (k, v) :: rest else (k', v') :: jsSet rest k v

/-- Per-process solver state store: chain id (a JS `number`) to the chain's
latest snapshot, as held in `Solver.states` / `SolverV2.states`. -/
abbrev StatesMap := List (Nat × ChainState)

/-- Token balance visible in a states map for a destination chain and a
(lower-cased) token key, taking 0 for a missing chain or token.  This is
the observation the invariants below are phrased in. -/
def balanceOf (states : StatesMap) (chainId : Nat) (token : String) : Nat :=
  match jsGet states chainId with
  | none => 0
  | some st => (jsGet st.tokenBalances token).getD 0

/-- Conversion of a `Transfer` into the `Trade` literal built at the end of
`Solver.solve` / `SolverV2.solve` (addresses lower-cased, chain ids kept
raw). -/
def tradeOfTransfer (transfer : Transfer) : Trade :=
  { requestId := transfer.requestId
    nonce := transfer.params.nonce
    tokenInAddr := lowerStr transfer.params.tokenIn
    tokenOutAddr := lowerStr transfer.params.tokenOut
    srcChainId := transfer.params.srcChainId
    destChainId := transfer.params.dstChainId
    senderAddr := lowerStr transfer.params.sender
    recipientAddr := lowerStr transfer.params.recipient
    swapAmount := transfer.params.amountOut }

/-- Case-insensitive membership of a request id in a fulfilled list, as
written in `Solver.solve`, `Solver.calculateTrades` and their v2 copies:
`alreadyFulfilled.some((id) => id.toLowerCase() === requestId.toLowerCase())`. -/
def fulfilledCheck (alreadyFulfilled : List String) (requestId : String) : Bool :=
  alreadyFulfilled.any (fun id => lowerStr id == lowerStr requestId)

/-- In-place mutation `destState.tokenBalances.set(tok, v)` of a chain
state's token-balance map: the state with the token's balance bound to
`v`. -/
def debitState (ds : ChainState) (tok : String) (v : Nat) : ChainState :=
  { ds with tokenBalances := jsSet ds.tokenBalances tok v }

/-- Embedding of `Solver.solve` (`src/not-only-swaps/src/solver.ts`, lines 118-197).
Returns the optional emitted `Trade` together with the states map as
observed after the call.  The source mutates `destState.tokenBalances` in
place (`destState.tokenBalances.set(tokenAddress, tokenBalance - amountOut)`);
the functional embedding returns the updated map content instead.  Note the
`destState` object is shared between the per-tick clone and the persistent
`this.states` (the clone `new Map(this.states)` copies only the outer map),
so this returned content is what both maps observe after the call. -/
def solveV1 (transfer : Transfer) (states : StatesMap) : Option Trade × StatesMap :=
  let p := transfer.params
  let destChainId := normalizeChainId p.dstChainId
  match jsGet states destChainId with
  | none => (none, states)
  | some destState =>
    if p.executed then (none, states)
    else if fulfilledCheck destState.alreadyFulfilled transfer.requestId then (none, states)
    else if destState.nativeBalance = 0 then (none, states)
    else
      let tokenAddress := lowerStr p.tokenOut
      match jsGet destState.tokenBalances tokenAddress with
      | none => (none, states)
      | some tokenBalance =>
        if tokenBalance = 0 ∨ tokenBalance < p.amountOut then (none, states)
        else if p.solverFee < 1 then (none, states)
        else
          (some (tradeOfTransfer transfer),
            jsSet states destChainId
              (debitState destState tokenAddress (tokenBalance - p.amountOut)))

/-- Per-transfer loop of `Solver.calculateTrades` (lines 91-112): skip
transfers already in the in-flight cache (`inFlight.has` is an exact string
lookup), otherwise run `solve` and collect the emitted trade, threading the
mutated states through the rest of the loop. -/
def tickLoopV1 (inFlight : List String) :
    StatesMap → List Transfer → List Trade × StatesMap
  | states, [] => ([], states)
  | states, t :: rest =>
    if inFlight.contains t.requestId then tickLoopV1 inFlight states rest
    else
      match solveV1 t states with
      | (none, states') => tickLoopV1 inFlight states' rest
      | (some trade, states') =>
        let res := tickLoopV1 inFlight states' rest
        (trade :: res.1, res.2)

/-- Pre-filter of `Solver.calculateTrades` (lines 70-80): drop transfers
whose request id already appears (case-insensitively) in the destination
chain's fulfilled set; keep the transfer when the destination state is
unknown. -/
def prefilterV1 (states : StatesMap) (transfers : List Transfer) : List Transfer :=
  transfers.filter (fun transfer =>
    match jsGet states (normalizeChainId transfer.params.dstChainId) with
    | none => true
    | some destState => ! fulfilledCheck destState.alreadyFulfilled transfer.requestId)

/-- Embedding of `Solver.calculateTrades` (lines 55-113).  The source first takes
`const states = new Map(this.states)`; this copies only the outer map while
sharing every `ChainState` (and its `tokenBalances` map) with the
persistent `this.states`, so the clone's content coincides with the
persistent store's content before, during and after the call.  The
returned `StatesMap` is that shared content after the tick.  A missing
state for `chainId` throws (`Except.error`). -/
def calculateTradesV1 (states : StatesMap) (chainId : Nat) (inFlight : List String) :
    Except String (List Trade × StatesMap) :=
  match jsGet states chainId with
  | none => .error ("State for chain " ++ toString chainId ++ " not found")
  | some chainState =>
    .ok (tickLoopV1 inFlight states (prefilterV1 states chainState.transfers))

/-- Embedding of `Solver.fetchState` (lines 35-50).  `chains` holds the configured chain
ids (the keys of `this.chains`); `fetched` is the snapshot the chain
provider's network call would return (the call happens only after the
chain-membership check).  The second component is the content of the
persistent `this.states` after the call: unchanged when the chain is
unknown (the method throws before touching the store), otherwise the
snapshot is installed and `calculateTrades` runs on it. -/
def fetchStateV1 (chains : List Nat) (states : StatesMap) (chainId : Nat)
    (fetched : ChainState) (inFlight : List String) :
    Except String (List Trade) × StatesMap :=
  if chains.contains chainId then
    let states' := jsSet states chainId fetched
    match calculateTradesV1 states' chainId inFlight with
    | .ok (trades, statesAfter) => (.ok trades, statesAfter)
    | .error e => (.error e, states')
  else
    (.error ("Chain " ++ toString chainId ++ " not found"), states)

/-- Zero address literal used by the executor's verification check and the
risk manager's counterparty check. -/
def zeroAddress : String := "0x0000000000000000000000000000000000000000"

/-- Reconciled parameter set (`actualTokenIn` … `actualNonce` in
`TradeExecutor.executeTrade`). -/
structure ActualParams where
  tokenIn : String
  tokenOut : String
  sender : String
  recipient : String
  amountOut : Nat
  srcChainId : Nat
  nonce : Nat
deriving DecidableEq, Repr

/-- Parameter reconciliation block of `TradeExecutor.executeTrade`
(`src/not-only-swaps/src/executor.ts`, lines 112-181).  `lookupResult`
models the outcome of `router.getSwapRequestParameters(paddedRequestId)`:
`none` when the call threw (the catch falls back to the trade-carried
values), `some p` when a record decoded (both the named-struct and the
positional decode extract the same logical fields of the stored tuple).
When the record is verified — non-zero `srcChainId` and non-zero sender —
the stored values replace the trade-carried ones. -/
def reconcileParams (trade : Trade) (lookupResult : Option SwapRequestParameters) :
    ActualParams :=
  let base : ActualParams :=
    { tokenIn := lowerStr trade.tokenInAddr
      tokenOut := lowerStr trade.tokenOutAddr
      sender := lowerStr trade.senderAddr
      recipient := lowerStr trade.recipientAddr
      amountOut := trade.swapAmount
      srcChainId := trade.srcChainId
      nonce := trade.nonce }
  match lookupResult with
  | none => base
  | some p =>
    let storedSender := lowerStr p.sender
    if p.srcChainId ≠ 0 ∧ storedSender ≠ zeroAddress then
      { tokenIn := lowerStr p.tokenIn
        tokenOut := lowerStr p.tokenOut
        sender := storedSender
        recipient := lowerStr p.recipient
        amountOut := p.amountOut
        srcChainId := p.srcChainId
        nonce := p.nonce }
    else base

/-- Argument tuple of the `router.relayTokens(...)` call issued by
`TradeExecutor.executeTradeInternal` (lines 235-285): own address and all
reconciled addresses lower-cased once more, request id padded to
`bytes32`. -/
structure RelayArgs where
  solver : String
  requestId : String
  sender : String
  recipient : String
  tokenIn : String
  tokenOut : String
  amountOut : Nat
  srcChainId : Nat
  nonce : Nat
deriving DecidableEq, Repr

/-- Construction of the `relayTokens` arguments from the reconciled
parameters, as performed at the top of `executeTradeInternal`. -/
def relayArgsOf (ownAddress : String) (trade : Trade) (actual : ActualParams) :
    RelayArgs :=
  { solver := lowerStr ownAddress
    requestId := toRequestId trade.requestId
    sender := lowerStr actual.sender
    recipient := lowerStr actual.recipient
    tokenIn := lowerStr actual.tokenIn
    tokenOut := lowerStr actual.tokenOut
    amountOut := actual.amountOut
    srcChainId := actual.srcChainId
    nonce := actual.nonce }

/-- Events observable while `TradeExecutor.execute` processes its trade
list, in program order: the in-flight skip, the cache insertion with its
TTL in seconds, each network round-trip made for the trade, and the cache
deletion performed on failure. -/
inductive ExecEvent where
  | skip (requestId : String)
  | setInFlight (requestId : String) (ttlSeconds : Nat)
  | netCall (requestId : String)
  | delInFlight (requestId : String)
deriving DecidableEq, Repr

/-- Outcome of one `executeTrade` attempt, abstracting the network
nondeterminism (receipts, reverts, timeouts).  Each constructor records
where the attempt stopped; everything except `ok` makes `executeTrade`
throw into the catch block of `execute`. -/
inductive ExecOutcome where
  | routerMissing
  | tokenMissing
  | approveFailed
  | relayFailed
  | ok
deriving DecidableEq, Repr

/-- Network calls performed by `TradeExecutor.executeTrade` before it
returns or throws, and whether it succeeded.  `routerMissing` throws on the
local `this.routers.get` lookup before any network traffic; the parameter
lookup (`getSwapRequestParameters`) is always attempted next; the approve
and relay transactions follow in that order. -/
def executeTradeEvents (o : ExecOutcome) (id : String) : List ExecEvent × Bool :=
  match o with
  | .routerMissing => ([], false)
  | .tokenMissing => ([.netCall id], false)
  | .approveFailed => ([.netCall id, .netCall id], false)
  | .relayFailed => ([.netCall id, .netCall id, .netCall id], false)
  | .ok => ([.netCall id, .netCall id, .netCall id], true)

/-- Embedding of `NodeCache`-style insertion: the cache is keyed, so re-inserting a
present key only refreshes it (membership is what the solver observes). -/
def cacheSet (cache : List String) (id : String) : List String :=
  if cache.contains id then cache else id :: cache

/-- Embedding of `NodeCache.del`: remove every binding of the key. -/
def cacheDel (cache : List String) (id : String) : List String :=
  cache.filter (fun k => k ≠ id)

/-- Body of the `for (const trade of trades)` loop in
`TradeExecutor.execute` (lines 64-95): skip when already in flight,
otherwise insert into the cache with a 30-second TTL, run `executeTrade`,
and on a thrown error delete the cache entry; the loop then continues with
the next trade either way. -/
def processTrade (o : Trade → ExecOutcome) (inFlight : List String) (t : Trade) :
    List ExecEvent × List String :=
  if inFlight.contains t.requestId then ([.skip t.requestId], inFlight)
  else
    let inFlight' := cacheSet inFlight t.requestId
    let attempt := executeTradeEvents (o t) t.requestId
    if attempt.2 then (.setInFlight t.requestId 30 :: attempt.1, inFlight')
    else (.setInFlight t.requestId 30 :: attempt.1 ++ [.delInFlight t.requestId],
          cacheDel inFlight' t.requestId)

/-- Embedding of `TradeExecutor.execute` over the whole trade list: the event trace and
the final in-flight cache. -/
def executeList (o : Trade → ExecOutcome) (inFlight : List String) :
    List Trade → List ExecEvent × List String
  | [] => ([], inFlight)
  | t :: rest =>
    let step := processTrade o inFlight t
    let res := executeList o step.2 rest
    (step.1 ++ res.1, res.2)

/-- Embedding of `RiskManager.minSolverFee` (0.001 ether). -/
def minSolverFee : Nat := 1000000000000000

/-- Exact fraction used to embed the JavaScript `number` (IEEE double)
scores of the v2 evaluator: risk scores, profit scores and the ranking
score.  The doubles in the source approximate these exact rationals; every
construction below keeps the denominator positive.  An explicit
numerator/denominator pair (rather than a normalized `Rat`) keeps every
comparison kernel-computable. -/
structure Score where
  num : Int
  den : Nat
deriving DecidableEq, Repr

/-- Embedding of a score into `ℚ` (for statements relating scores to the
arithmetic they denote). -/
def Score.toRat (a : Score) : ℚ := (a.num : ℚ) / (a.den : ℚ)

/-- Score comparison (`<` on the rationals denoted, via cross
multiplication; denominators are positive by construction). -/
def Score.lt (a b : Score) : Prop := a.num * (b.den : Int) < b.num * (a.den : Int)

instance : DecidableRel Score.lt := fun a b => by
  unfold Score.lt
  exact inferInstance

/-- Score comparison (`≤` on the rationals denoted). -/
def Score.le (a b : Score) : Prop := a.num * (b.den : Int) ≤ b.num * (a.den : Int)

instance : DecidableRel Score.le := fun a b => by
  unfold Score.le
  exact inferInstance

/-- Score addition. -/
def Score.add (a b : Score) : Score :=
  ⟨a.num * (b.den : Int) + b.num * (a.den : Int), a.den * b.den⟩

/-- Score subtraction. -/
def Score.sub (a b : Score) : Score :=
  ⟨a.num * (b.den : Int) - b.num * (a.den : Int), a.den * b.den⟩

/-- Score scaling by a natural number. -/
def Score.scale (a : Score) (k : Nat) : Score := ⟨a.num * (k : Int), a.den⟩

/-- Score division by a positive natural number. -/
def Score.divN (a : Score) (k : Nat) : Score := ⟨a.num, a.den * k⟩

/-- Fraction of two naturals as a `Score`. -/
def Score.ofFrac (n d : Nat) : Score := ⟨(n : Int), d⟩

/-- Embedding of `RiskManager.maxRisk` (30%). -/
def maxRisk : Score := Score.ofFrac 3 10

/-- Embedding of `GasPriceEstimator.getGasPrice`.  The 30-second cache only ever stores
these same per-chain defaults (the placeholder estimator never consults a
live source), so the cached and uncached reads coincide and the function is
pure. -/
def getGasPrice (chainId : Nat) : Nat :=
  if chainId = 1 then 20000000000
  else if chainId = 137 then 30000000000
  else if chainId = 42161 then 100000000
  else if chainId = 10 then 1000000
  else 20000000000

/-- Embedding of `ProfitOptimizer.estimateGasCost`: 150000 gas units at the destination
chain's gas price. -/
def estimateGasCost (trade : Trade) : Nat :=
  150000 * getGasPrice (normalizeChainId trade.destChainId)

/-- Embedding of `ProfitOptimizer.estimateOpportunityCost`:
`lockedAmount * 1000 * 60 / 3600000` in truncating bigint division. -/
def estimateOpportunityCost (trade : Trade) : Nat :=
  trade.swapAmount * 1000 * 60 / 3600000

/-- Embedding of `ProfitOptimizer.estimateProfit`: `solverFee - gasCost - opportunityCost`
in signed bigint arithmetic, floored at 0. -/
def estimateProfit (trade : Trade) (transfer : Transfer) : Int :=
  max 0 ((transfer.params.solverFee : Int) -
    (estimateGasCost trade : Int) - (estimateOpportunityCost trade : Int))

/-- Embedding of `ProfitOptimizer.calculateProfitScore`: 0 when the fee is zero,
otherwise the ratio of estimated profit to fee.  The source computes the
ratio on IEEE doubles (`Number(profit) / Number(solverFee)`); it is
embedded as the exact fraction the doubles approximate. -/
def calculateProfitScore (trade : Trade) (transfer : Transfer) : Score :=
  if transfer.params.solverFee = 0 then Score.ofFrac 0 1
  else ⟨estimateProfit trade transfer, transfer.params.solverFee⟩

/-- Embedding of `RiskManager.assessLiquidityRisk`.  The `requiredAmount ≠ 0` conjunct
reproduces the float behaviour at `requiredAmount = 0`: the source ratio is
then `Infinity`, which fails the `< 1.1` test. -/
def assessLiquidityRisk (trade : Trade) (states : StatesMap) : Score :=
  match jsGet states (normalizeChainId trade.destChainId) with
  | none => Score.ofFrac 1 1
  | some destState =>
    let tokenBalance := (jsGet destState.tokenBalances trade.tokenOutAddr).getD 0
    let requiredAmount := trade.swapAmount
    if tokenBalance = 0 then Score.ofFrac 1 1
    else if tokenBalance < requiredAmount then Score.ofFrac 8 10
    else if requiredAmount ≠ 0 ∧
        Score.lt (Score.ofFrac tokenBalance requiredAmount) (Score.ofFrac 11 10) then
      Score.ofFrac 1 2
    else Score.ofFrac 1 10

/-- Embedding of `RiskManager.assessFeeRisk`. -/
def assessFeeRisk (transfer : Transfer) : Score :=
  if transfer.params.solverFee < minSolverFee then Score.ofFrac 9 10 else Score.ofFrac 1 10

/-- Embedding of `RiskManager.assessExecutionRisk`. -/
def assessExecutionRisk (trade : Trade) (states : StatesMap) : Score :=
  match jsGet states (normalizeChainId trade.destChainId) with
  | none => Score.ofFrac 8 10
  | some destState =>
    if destState.nativeBalance = 0 then Score.ofFrac 1 1
    else if destState.nativeBalance < 100000000000000000 then Score.ofFrac 6 10
    else Score.ofFrac 2 10

/-- Embedding of `RiskManager.assessCounterpartyRisk`. -/
def assessCounterpartyRisk (transfer : Transfer) : Score :=
  if lowerStr transfer.params.sender = zeroAddress ∨
      lowerStr transfer.params.recipient = zeroAddress then Score.ofFrac 1 2
  else Score.ofFrac 1 10

/-- Embedding of `RiskManager.assessRisk`: plain average of the four axes.  The source
averages IEEE doubles; the axis values are the decimal literals above and
the average is embedded as the exact fraction they approximate. -/
def assessRisk (trade : Trade) (transfer : Transfer) (states : StatesMap) : Score :=
  Score.divN
    (Score.add (Score.add (Score.add (assessLiquidityRisk trade states)
      (assessFeeRisk transfer)) (assessExecutionRisk trade states))
      (assessCounterpartyRisk transfer)) 4

/-- Embedding of `SolverV2.solve` (the v2 variant): the same checks as v1 except that
the fee threshold is `RiskManager.minSolverFee`, and — unlike v1 — no
balance debit happens here (the commit pass performs it later). -/
def solveV2 (transfer : Transfer) (states : StatesMap) : Option Trade :=
  let p := transfer.params
  match jsGet states (normalizeChainId p.dstChainId) with
  | none => none
  | some destState =>
    if p.executed then none
    else if fulfilledCheck destState.alreadyFulfilled transfer.requestId then none
    else if destState.nativeBalance = 0 then none
    else
      match jsGet destState.tokenBalances (lowerStr p.tokenOut) with
      | none => none
      | some tokenBalance =>
        if tokenBalance = 0 ∨ tokenBalance < p.amountOut then none
        else if p.solverFee < minSolverFee then none
        else some (tradeOfTransfer transfer)

/-- Scored candidate collected by the v2 evaluator loop. -/
structure Candidate where
  trade : Trade
  transfer : Transfer
  score : Score
  risk : Score
deriving DecidableEq, Repr

/-- Candidate-collection loop of `SolverV2.calculateTrades`: skip in-flight
transfers, evaluate conditions (`condOk` abstracts the asynchronous
condition evaluator, whose verdicts depend on wall clock, price oracles and
arbitrary `custom` closures; a transfer without conditions is never sent to
it), solve, and keep candidates whose risk is strictly below the threshold,
scored `profitScore - risk * 10`. -/
def collectCandidates (condOk : Transfer → Bool) (inFlight : List String)
    (states : StatesMap) : List Transfer → List Candidate
  | [] => []
  | t :: rest =>
    if inFlight.contains t.requestId then collectCandidates condOk inFlight states rest
    else if !t.conditions.isEmpty && !condOk t then
      collectCandidates condOk inFlight states rest
    else
      match solveV2 t states with
      | none => collectCandidates condOk inFlight states rest
      | some trade =>
        let risk := assessRisk trade t states
        let profitScore := calculateProfitScore trade t
        if Score.lt risk maxRisk then
          { trade := trade, transfer := t, score := Score.sub profitScore (Score.scale risk 10),
            risk := risk } :: collectCandidates condOk inFlight states rest
        else collectCandidates condOk inFlight states rest

/-- Commit pass of `SolverV2.calculateTrades` (lines 656-670): walk the
ranked candidates, emit those whose destination token balance still covers
the amount, and debit that balance (the same in-place mutation of the
shared `ChainState` as in v1, embedded by threading the updated map). -/
def commitPass : StatesMap → List Candidate → List Trade × StatesMap
  | states, [] => ([], states)
  | states, c :: rest =>
    let destChainId := normalizeChainId c.trade.destChainId
    match jsGet states destChainId with
    | none => commitPass states rest
    | some destState =>
      let tokenBalance := (jsGet destState.tokenBalances c.trade.tokenOutAddr).getD 0
      if c.trade.swapAmount ≤ tokenBalance then
        let res := commitPass
          (jsSet states destChainId
            (debitState destState c.trade.tokenOutAddr (tokenBalance - c.trade.swapAmount)))
          rest
        (c.trade :: res.1, res.2)
      else commitPass states rest

/-- Embedding of `SolverV2.calculateTrades` (lines 567-672).  The pre-filter is
textually identical to the v1 one (`prefilterV1`).  Ranking uses the JS
comparator `(a, b) => b.score - a.score` (descending by score); only the
fact that sorting permutes the candidates is used by the theorems, so the
embedding uses insertion sort with that ordering.  As in v1, the clone
`new Map(this.states)` shares the `ChainState` objects with the persistent
store, so the returned `StatesMap` is what the persistent `this.states`
observes after the call. -/
def calculateTradesV2 (condOk : Transfer → Bool) (states : StatesMap)
    (chainId : Nat) (inFlight : List String) :
    Except String (List Trade × StatesMap) :=
  match jsGet states chainId with
  | none => .error ("State for chain " ++ toString chainId ++ " not found")
  | some chainState =>
    let unfulfilled := prefilterV1 states chainState.transfers
    let candidates := collectCandidates condOk inFlight states unfulfilled
    let ranked := List.insertionSort (fun a b => Score.le b.score a.score) candidates
    .ok (commitPass states ranked)

/-! Concrete fixtures used to evaluate the embedded code on explicit
inputs (counterexamples and witnesses). -/

/-- Request parameters of a plain solvable transfer: chain 1 to chain 2,
4 units of token `0xT`, fee at the v2 minimum (also ≥ 1, the v1 bound). -/
def params1 : SwapRequestParameters :=
  { srcChainId := 1, dstChainId := 2, sender := "0xS", recipient := "0xR"
    tokenIn := "0xI", tokenOut := "0xT", amountOut := 4, verificationFee := 0
    solverFee := 1000000000000000, nonce := 7, executed := false, requestedAt := 0 }

/-- A plain solvable transfer. -/
def transfer1 : Transfer := { requestId := "0xaa", params := params1 }

/-- Source-chain snapshot listing `transfer1`. -/
def srcState1 : ChainState :=
  { nativeBalance := 1, tokenBalances := [], transfers := [transfer1], alreadyFulfilled := [] }

/-- Destination-chain snapshot holding 5 units of the (lower-cased) token. -/
def destState1 : ChainState :=
  { nativeBalance := 1, tokenBalances := [("0xt", 5)], transfers := [], alreadyFulfilled := [] }

/-- Two-chain state store for the plain scenario. -/
def states1 : StatesMap := [(1, srcState1), (2, destState1)]

/-- State store whose source chain reports the same transfer twice
(duplicate request ids) and whose destination holds enough inventory for
both copies. -/
def states3 : StatesMap :=
  [(1, { srcState1 with transfers := [transfer1, transfer1] }),
   (2, { destState1 with tokenBalances := [("0xt", 8)] })]

/-- Upper-case variant of `transfer1`'s request id (`0xAA` vs `0xaa`). -/
def transferUpper : Transfer := { requestId := "0xAA", params := params1 }

/-- Transfer with `amountOut = 0` toward a destination whose token balance
is present and exactly 0 (so balance = `amountOut`). -/
def transfer6 : Transfer :=
  { requestId := "0xcc", params := { params1 with amountOut := 0 } }

/-- Second transfer competing for the same destination token with a
positive amount. -/
def transfer6b : Transfer :=
  { requestId := "0xdd", params := { params1 with amountOut := 3 } }

/-- Destination snapshot whose token balance is present and exactly 0. -/
def destState6 : ChainState := { destState1 with tokenBalances := [("0xt", 0)] }

/-- State store for the `balance = amountOut = 0` boundary case. -/
def states6 : StatesMap :=
  [(1, { srcState1 with transfers := [transfer6] }), (2, destState6)]

/-- Destination snapshot whose token balance exactly equals `transfer1`'s
`amountOut` (4). -/
def destState6b : ChainState := { destState1 with tokenBalances := [("0xt", 4)] }

/-- State store for the `balance = amountOut = 4 > 0` boundary case, with a
second positive-amount candidate for the same token. -/
def states6b : StatesMap :=
  [(1, { srcState1 with transfers := [transfer1, transfer6b] }), (2, destState6b)]

/-- Content of the state store after the plain scenario's tick: the
destination token balance was debited from 5 to 1. -/
def states1After : StatesMap :=
  [(1, srcState1), (2, { destState1 with tokenBalances := [("0xt", 1)] })]

/-- Sum of `swapAmount` over the trades whose normalized destination chain
is `d` and whose (lower-cased) output token is `tok`. -/
def sumTrades (d : Nat) (tok : String) : List Trade → Nat
  | [] => 0
  | tr :: rest =>
    (if normalizeChainId tr.destChainId = d ∧ tr.tokenOutAddr = tok then tr.swapAmount else 0)
      + sumTrades d tok rest

/-- Stored parameter record the destination router could return: verified
(non-zero `srcChainId`, non-zero sender) and different from the
trade-carried values. -/
def storedParams7 : SwapRequestParameters :=
  { srcChainId := 9, dstChainId := 2, sender := "0xSTORED", recipient := "0xREC"
    tokenIn := "0xTIN", tokenOut := "0xTOUT", amountOut := 11, verificationFee := 0
    solverFee := 5, nonce := 13, executed := false, requestedAt := 0 }

/-- Trade fixture for the executor claims. -/
def trade8 : Trade := tradeOfTransfer transfer1

/-! Basic lemmas about the embedding (JS map lookups, lower-casing). -/

theorem jsGet_jsSet_self {α β : Type} [DecidableEq α] (m : List (α × β)) (k : α) (v : β) :
    jsGet (jsSet m k v) k = some v := by
  induction m with
  | nil => simp [jsGet, jsSet]
  | cons p rest ih =>
    obtain ⟨k', v'⟩ := p
    by_cases h : k' = k
    · subst h
      simp [jsGet, jsSet]
    · simp [jsGet, jsSet, h, ih]

theorem jsGet_jsSet_ne {α β : Type} [DecidableEq α] (m : List (α × β)) (k k' : α) (v : β)
    (h : k' ≠ k) : jsGet (jsSet m k v) k' = jsGet m k' := by
  induction m with
  | nil =>
    simp only [jsSet, jsGet]
    rw [if_neg (Ne.symm h)]
  | cons p rest ih =>
    obtain ⟨a, b⟩ := p
    simp only [jsSet]
    by_cases ha : a = k
    · subst ha
      simp only [if_pos rfl, jsGet]
      rw [if_neg (Ne.symm h), if_neg (Ne.symm h)]
    · rw [if_neg ha]
      simp only [jsGet]
      by_cases ha' : a = k'
      · rw [if_pos ha', if_pos ha']
      · rw [if_neg ha', if_neg ha', ih]

theorem charToLower_idem (c : Char) : c.toLower.toLower = c.toLower := by
  unfold Char.toLower
  by_cases h : c.toNat ≥ 65 ∧ c.toNat ≤ 90
  · rw [if_pos h]
    have hv : (c.toNat + 32).isValidChar := by
      left
      omega
    have ht : (Char.ofNat (c.toNat + 32)).toNat = c.toNat + 32 := by
      unfold Char.ofNat
      rw [dif_pos hv]
      rfl
    rw [ht, if_neg (by omega)]
  · rw [if_neg h, if_neg h]

theorem lowerStr_idem (s : String) : lowerStr (lowerStr s) = lowerStr s := by
  show String.mk ((s.data.map Char.toLower).map Char.toLower) = String.mk (s.data.map Char.toLower)
  rw [List.map_map]
  exact congrArg String.mk (List.map_congr_left (fun c _ => charToLower_idem c))

/-- Balance observed after the in-place debit
`destState.tokenBalances.set(tok, v)` on the chain-state stored under `D`:
the debited cell reads `v`, every other cell is untouched. -/
theorem balanceOf_debit (states : StatesMap) (D : Nat) (ds : ChainState) (tok : String)
    (v : Nat) (hget : jsGet states D = some ds) (d : Nat) (tok' : String) :
    balanceOf (jsSet states D (debitState ds tok v)) d tok' =
      if d = D ∧ tok' = tok then v else balanceOf states d tok' := by
  by_cases hd : d = D
  · subst hd
    unfold balanceOf debitState
    rw [jsGet_jsSet_self, hget]
    by_cases ht : tok' = tok
    · subst ht
      rw [if_pos ⟨rfl, rfl⟩]
      simp [jsGet_jsSet_self]
    · rw [if_neg (fun hc => ht hc.2)]
      simp [jsGet_jsSet_ne _ _ _ _ ht]
  · unfold balanceOf
    rw [jsGet_jsSet_ne _ _ _ _ hd, if_neg (fun hc => hd hc.1)]

/-- Deleting a key from the in-flight cache removes it. -/
theorem contains_cacheDel (l : List String) (id : String) :
    (cacheDel l id).contains id = false := by
  simp [cacheDel]

/-- Inserting a key into the in-flight cache makes it present. -/
theorem contains_cacheSet (l : List String) (id : String) :
    (cacheSet l id).contains id = true := by
  unfold cacheSet
  by_cases h : l.contains id = true
  · rw [if_pos h]
    exact h
  · rw [if_neg h]
    simp [List.contains_cons]

/-- Case analysis of `Solver.solve`: either it skips (and the states are
untouched), or every check passed and it emits the converted trade while
debiting the destination token balance of the clone/store. -/
theorem solveV1_cases (t : Transfer) (states : StatesMap) :
    solveV1 t states = (none, states) ∨
    ∃ ds tb,
      jsGet states (normalizeChainId t.params.dstChainId) = some ds ∧
      jsGet ds.tokenBalances (lowerStr t.params.tokenOut) = some tb ∧
      tb ≠ 0 ∧ t.params.amountOut ≤ tb ∧
      solveV1 t states =
        (some (tradeOfTransfer t),
          jsSet states (normalizeChainId t.params.dstChainId)
            (debitState ds (lowerStr t.params.tokenOut) (tb - t.params.amountOut))) := by
  simp only [solveV1]
  cases hg : jsGet states (normalizeChainId t.params.dstChainId) with
  | none => exact Or.inl rfl
  | some ds =>
    by_cases h1 : t.params.executed
    · exact Or.inl (by simp [h1])
    · by_cases h2 : fulfilledCheck ds.alreadyFulfilled t.requestId
      · exact Or.inl (by simp [h1, h2])
      · by_cases h3 : ds.nativeBalance = 0
        · exact Or.inl (by simp [h1, h2, h3])
        · cases ht : jsGet ds.tokenBalances (lowerStr t.params.tokenOut) with
          | none => exact Or.inl (by simp [h1, h2, h3, ht])
          | some tb =>
            by_cases h4 : tb = 0 ∨ tb < t.params.amountOut
            · exact Or.inl (by simp [h1, h2, h3, ht, h4])
            · by_cases h5 : t.params.solverFee < 1
              · exact Or.inl (by simp [h1, h2, h3, ht, h4, h5])
              · exact Or.inr ⟨ds, tb, rfl, ht, fun h0 => h4 (Or.inl h0),
                  le_of_not_lt (fun hlt => h4 (Or.inr hlt)),
                  by simp [h1, h2, h3, ht, h4, h5]⟩

/-- Within one v1 tick loop, the sum of emitted amounts per destination
chain and token never exceeds the balance held at entry. -/
theorem tickLoopV1_sum_le (inFlight : List String) (d : Nat) (tok : String) :
    ∀ (ts : List Transfer) (states : StatesMap),
      sumTrades d tok (tickLoopV1 inFlight states ts).1 ≤ balanceOf states d tok := by
  intro ts
  induction ts with
  | nil => intro states; simp [tickLoopV1, sumTrades]
  | cons t rest ih =>
    intro states
    by_cases hf : inFlight.contains t.requestId = true
    · simp only [tickLoopV1, if_pos hf]
      exact ih states
    · rcases solveV1_cases t states with hs | ⟨ds, tb, hg, ht, htb0, hle, hs⟩
      · simp only [tickLoopV1, if_neg hf, hs]
        exact ih states
      · simp only [tickLoopV1, if_neg hf, hs]
        simp only [sumTrades]
        have hb := balanceOf_debit states (normalizeChainId t.params.dstChainId) ds
          (lowerStr t.params.tokenOut) (tb - t.params.amountOut) hg d tok
        by_cases hc : normalizeChainId t.params.dstChainId = d ∧ lowerStr t.params.tokenOut = tok
        · obtain ⟨hc1, hc2⟩ := hc
          rw [if_pos (show normalizeChainId (tradeOfTransfer t).destChainId = d ∧
            (tradeOfTransfer t).tokenOutAddr = tok from ⟨hc1, hc2⟩)]
          have hbal : balanceOf states d tok = tb := by
            rw [← hc1, ← hc2]
            simp only [balanceOf, hg, ht, Option.getD_some]
          have hbal' : balanceOf
              (jsSet states (normalizeChainId t.params.dstChainId)
                (debitState ds (lowerStr t.params.tokenOut) (tb - t.params.amountOut)))
              d tok = tb - t.params.amountOut := by
            rw [hb, if_pos ⟨hc1.symm, hc2.symm⟩]
          have hrest := ih (jsSet states (normalizeChainId t.params.dstChainId)
            (debitState ds (lowerStr t.params.tokenOut) (tb - t.params.amountOut)))
          rw [hbal'] at hrest
          rw [hbal]
          simp only [tradeOfTransfer]
          omega
        · rw [if_neg (show ¬(normalizeChainId (tradeOfTransfer t).destChainId = d ∧
            (tradeOfTransfer t).tokenOutAddr = tok) from hc)]
          have hpres : balanceOf
              (jsSet states (normalizeChainId t.params.dstChainId)
                (debitState ds (lowerStr t.params.tokenOut) (tb - t.params.amountOut)))
              d tok = balanceOf states d tok := by
            rw [hb, if_neg (fun hcc => hc ⟨hcc.1.symm, hcc.2.symm⟩)]
          have hrest := ih (jsSet states (normalizeChainId t.params.dstChainId)
            (debitState ds (lowerStr t.params.tokenOut) (tb - t.params.amountOut)))
          rw [hpres] at hrest
          simpa using hrest

/-- Within the v2 commit pass, the sum of committed amounts per destination
chain and token never exceeds the balance held at entry. -/
theorem commitPass_sum_le (d : Nat) (tok : String) :
    ∀ (cs : List Candidate) (states : StatesMap),
      sumTrades d tok (commitPass states cs).1 ≤ balanceOf states d tok := by
  intro cs
  induction cs with
  | nil => intro states; simp [commitPass, sumTrades]
  | cons c rest ih =>
    intro states
    cases hg : jsGet states (normalizeChainId c.trade.destChainId) with
    | none =>
      simp only [commitPass, hg]
      exact ih states
    | some ds =>
      by_cases hcover : c.trade.swapAmount ≤ (jsGet ds.tokenBalances c.trade.tokenOutAddr).getD 0
      · simp only [commitPass, hg, if_pos hcover]
        simp only [sumTrades]
        have hb := balanceOf_debit states (normalizeChainId c.trade.destChainId) ds
          c.trade.tokenOutAddr
          ((jsGet ds.tokenBalances c.trade.tokenOutAddr).getD 0 - c.trade.swapAmount) hg d tok
        by_cases hc : normalizeChainId c.trade.destChainId = d ∧ c.trade.tokenOutAddr = tok
        · obtain ⟨hc1, hc2⟩ := hc
          rw [if_pos ⟨hc1, hc2⟩]
          have hbal : balanceOf states d tok =
              (jsGet ds.tokenBalances c.trade.tokenOutAddr).getD 0 := by
            rw [← hc1, ← hc2]
            simp only [balanceOf, hg]
          have hrest := ih (jsSet states (normalizeChainId c.trade.destChainId)
            (debitState ds c.trade.tokenOutAddr
              ((jsGet ds.tokenBalances c.trade.tokenOutAddr).getD 0 - c.trade.swapAmount)))
          rw [hb, if_pos ⟨hc1.symm, hc2.symm⟩] at hrest
          rw [hbal]
          omega
        · rw [if_neg hc]
          have hrest := ih (jsSet states (normalizeChainId c.trade.destChainId)
            (debitState ds c.trade.tokenOutAddr
              ((jsGet ds.tokenBalances c.trade.tokenOutAddr).getD 0 - c.trade.swapAmount)))
          rw [hb, if_neg (fun hcc => hc ⟨hcc.1.symm, hcc.2.symm⟩)] at hrest
          simpa using hrest
      · simp only [commitPass, hg, if_neg hcover]
        exact ih states

/-- Once a destination token balance is 0, the rest of a v1 tick loop can
never emit a trade against that chain and token (and the balance stays 0). -/
theorem tickLoopV1_zero_balance (inFlight : List String) (d : Nat) (tok : String) :
    ∀ (ts : List Transfer) (states : StatesMap), balanceOf states d tok = 0 →
      ∀ tr ∈ (tickLoopV1 inFlight states ts).1,
        ¬(normalizeChainId tr.destChainId = d ∧ tr.tokenOutAddr = tok) := by
  intro ts
  induction ts with
  | nil =>
    intro states h0 tr htr
    simp [tickLoopV1] at htr
  | cons t rest ih =>
    intro states h0 tr htr
    by_cases hf : inFlight.contains t.requestId = true
    · simp only [tickLoopV1, if_pos hf] at htr
      exact ih states h0 tr htr
    · rcases solveV1_cases t states with hs | ⟨ds, tb, hg, ht, htb0, hle, hs⟩
      · simp only [tickLoopV1, if_neg hf, hs] at htr
        exact ih states h0 tr htr
      · simp only [tickLoopV1, if_neg hf, hs] at htr
        have hnothead :
            ¬(normalizeChainId t.params.dstChainId = d ∧ lowerStr t.params.tokenOut = tok) := by
          rintro ⟨hc1, hc2⟩
          have hbal : balanceOf states d tok = tb := by
            rw [← hc1, ← hc2]
            simp only [balanceOf, hg, ht, Option.getD_some]
          exact htb0 (by rw [← hbal, h0])
        have h0' : balanceOf
            (jsSet states (normalizeChainId t.params.dstChainId)
              (debitState ds (lowerStr t.params.tokenOut) (tb - t.params.amountOut)))
            d tok = 0 := by
          rw [balanceOf_debit states _ ds _ _ hg d tok,
            if_neg (fun hcc => hnothead ⟨hcc.1.symm, hcc.2.symm⟩), h0]
        rcases List.mem_cons.mp htr with htr1 | htr2
        · subst htr1
          exact hnothead
        · exact ih _ h0' tr htr2

/-- Case analysis of the v2 `solve`: it either skips or emits the
converted transfer. -/
theorem solveV2_cases (t : Transfer) (states : StatesMap) :
    solveV2 t states = none ∨ solveV2 t states = some (tradeOfTransfer t) := by
  simp only [solveV2]
  cases hg : jsGet states (normalizeChainId t.params.dstChainId) with
  | none => exact Or.inl rfl
  | some ds =>
    by_cases h1 : t.params.executed
    · exact Or.inl (by simp [h1])
    · by_cases h2 : fulfilledCheck ds.alreadyFulfilled t.requestId
      · exact Or.inl (by simp [h1, h2])
      · by_cases h3 : ds.nativeBalance = 0
        · exact Or.inl (by simp [h1, h2, h3])
        · cases ht : jsGet ds.tokenBalances (lowerStr t.params.tokenOut) with
          | none => exact Or.inl (by simp [h1, h2, h3, ht])
          | some tb =>
            by_cases h4 : tb = 0 ∨ tb < t.params.amountOut
            · exact Or.inl (by simp [h1, h2, h3, ht, h4])
            · by_cases h5 : t.params.solverFee < minSolverFee
              · exact Or.inl (by simp [h1, h2, h3, ht, h4, h5])
              · exact Or.inr (by simp [h1, h2, h3, ht, h4, h5])

/-- A trade emitted by the v2 `solve` is exactly the converted transfer. -/
theorem solveV2_some_eq (t : Transfer) (states : StatesMap) (tr : Trade)
    (h : solveV2 t states = some tr) : tr = tradeOfTransfer t := by
  rcases solveV2_cases t states with hc | hc
  · rw [hc] at h
    exact absurd h (by simp)
  · rw [hc] at h
    exact (Option.some.inj h).symm

/-- Request ids of the trades emitted by a v1 tick loop form a sublist of
the input transfers' request ids. -/
theorem tickLoopV1_ids_sublist (inFlight : List String) :
    ∀ (ts : List Transfer) (states : StatesMap),
      ((tickLoopV1 inFlight states ts).1.map Trade.requestId).Sublist
        (ts.map Transfer.requestId) := by
  intro ts
  induction ts with
  | nil =>
    intro states
    simp [tickLoopV1]
  | cons t rest ih =>
    intro states
    by_cases hf : inFlight.contains t.requestId = true
    · simp only [tickLoopV1, if_pos hf, List.map_cons]
      exact (ih states).cons _
    · rcases solveV1_cases t states with hs | ⟨ds, tb, hg, ht, htb0, hle, hs⟩
      · simp only [tickLoopV1, if_neg hf, hs, List.map_cons]
        exact (ih states).cons _
      · simp only [tickLoopV1, if_neg hf, hs, List.map_cons]
        exact (ih _).cons₂ _

/-- Request ids of the candidates collected by the v2 loop form a sublist
of the input transfers' request ids. -/
theorem collectCandidates_ids_sublist (condOk : Transfer → Bool) (inFlight : List String)
    (states : StatesMap) :
    ∀ ts : List Transfer,
      ((collectCandidates condOk inFlight states ts).map (fun c => c.trade.requestId)).Sublist
        (ts.map Transfer.requestId) := by
  intro ts
  induction ts with
  | nil => simp [collectCandidates]
  | cons t rest ih =>
    by_cases hf : inFlight.contains t.requestId = true
    · simp only [collectCandidates, if_pos hf, List.map_cons]
      exact ih.cons _
    · by_cases hcond : (!t.conditions.isEmpty && !condOk t) = true
      · simp only [collectCandidates, if_neg hf, if_pos hcond, List.map_cons]
        exact ih.cons _
      · cases hsv : solveV2 t states with
        | none =>
          simp only [collectCandidates, if_neg hf, if_neg hcond, hsv, List.map_cons]
          exact ih.cons _
        | some trade =>
          have htr : trade = tradeOfTransfer t := solveV2_some_eq t states trade hsv
          subst htr
          by_cases hr : Score.lt (assessRisk (tradeOfTransfer t) t states) maxRisk
          · simp only [collectCandidates, if_neg hf, if_neg hcond, hsv, if_pos hr,
              List.map_cons]
            exact ih.cons₂ _
          · simp only [collectCandidates, if_neg hf, if_neg hcond, hsv, if_neg hr,
              List.map_cons]
            exact ih.cons _

/-- Request ids of the trades committed by the v2 commit pass form a
sublist of the ranked candidates' request ids. -/
theorem commitPass_ids_sublist :
    ∀ (cs : List Candidate) (states : StatesMap),
      ((commitPass states cs).1.map Trade.requestId).Sublist
        (cs.map (fun c => c.trade.requestId)) := by
  intro cs
  induction cs with
  | nil =>
    intro states
    simp [commitPass]
  | cons c rest ih =>
    intro states
    cases hg : jsGet states (normalizeChainId c.trade.destChainId) with
    | none =>
      simp only [commitPass, hg, List.map_cons]
      exact (ih states).cons _
    | some ds =>
      by_cases hcover :
          c.trade.swapAmount ≤ (jsGet ds.tokenBalances c.trade.tokenOutAddr).getD 0
      · simp only [commitPass, hg, if_pos hcover, List.map_cons]
        exact (ih _).cons₂ _
      · simp only [commitPass, hg, if_neg hcover, List.map_cons]
        exact (ih states).cons _

/-! Claim theorems. -/

/-- C4 counterexample: at `x = 2^64 - 1` (a 256-bit value whose low 64 bits
are all ones) the JavaScript conversion `Number(x & 0xFF…F)` rounds to
`2^64`, so `normalizeChainId x ≠ x mod 2^64`, and applying
`normalizeChainId` again collapses `2^64` to 0, so idempotence fails too. -/
theorem c4_counterexample :
    normalizeChainId (2 ^ 64 - 1) ≠ (2 ^ 64 - 1) % 2 ^ 64 ∧
    normalizeChainId (normalizeChainId (2 ^ 64 - 1)) ≠ normalizeChainId (2 ^ 64 - 1) := by
  decide

/-- C4 (amended): for every 256-bit value whose low 64 bits are below
`2^53` (the exactly-representable range of an IEEE double, which covers
every real chain id), `normalizeChainId x = x mod 2^64` and
`normalizeChainId` is idempotent at `x`. -/
theorem c4_normalize_mod_and_idem (x : Nat) (h : x % 2 ^ 64 < 2 ^ 53) :
    normalizeChainId x = x % 2 ^ 64 ∧
    normalizeChainId (normalizeChainId x) = normalizeChainId x := by
  have h1 : normalizeChainId x = x % 2 ^ 64 := by
    unfold normalizeChainId roundFloat64
    rw [if_pos h]
  refine ⟨h1, ?_⟩
  rw [h1]
  have hlt : x % 2 ^ 64 < 2 ^ 64 := Nat.mod_lt _ (by norm_num)
  unfold normalizeChainId roundFloat64
  rw [Nat.mod_eq_of_lt hlt, if_pos h]

/-- C4 witness: the amended statement evaluated at the concrete chain id
31337. -/
theorem c4_witness :
    normalizeChainId 31337 = 31337 % 2 ^ 64 ∧
    normalizeChainId (normalizeChainId 31337) = normalizeChainId 31337 :=
  c4_normalize_mod_and_idem 31337 (by decide)

/-- C5 counterexample: the fulfilled comparison is case-insensitive, but
the in-flight presence check (`inFlight.has` in both the evaluator loop and
the executor loop) compares raw strings: with `0xab` cached, the
case-variant `0xAB` is *not* treated as identical — the evaluator emits the
trade it would have skipped, and the executor skips only the exact-case
trade. -/
theorem c5_counterexample :
    lowerStr "0xAB" = lowerStr "0xab" ∧
    (tickLoopV1 ["0xab"] states1 [{ transfer1 with requestId := "0xAB" }]).1.length = 1 ∧
    (tickLoopV1 ["0xab"] states1 [{ transfer1 with requestId := "0xab" }]).1 = [] ∧
    (processTrade (fun _ => ExecOutcome.ok) ["0xab"]
      { trade8 with requestId := "0xAB" }).1 ≠ [ExecEvent.skip "0xAB"] ∧
    (processTrade (fun _ => ExecOutcome.ok) ["0xab"]
      { trade8 with requestId := "0xab" }).1 = [ExecEvent.skip "0xab"] := by
  refine ⟨by decide, by decide, by decide, by decide, by decide⟩

/-- C5 (amended): replacing a transfer's request id by any case-variant
never changes the outcome of the already-fulfilled membership check (both
sides are lower-cased before comparison); the in-flight presence check is
an exact string comparison, so case-variants coincide there only when the
cached key matches exactly (in the pipeline both sides are already
canonical lower-case, produced by `toRequestId`). -/
theorem c5_fulfilled_case_insensitive (ful : List String) (r r' : String)
    (h : lowerStr r = lowerStr r') :
    fulfilledCheck ful r = fulfilledCheck ful r' := by
  unfold fulfilledCheck
  rw [h]

/-- C5 witness: the amended statement at a concrete fulfilled list and a
concrete case-variant pair. -/
theorem c5_witness : fulfilledCheck ["0xAa"] "0xAA" = fulfilledCheck ["0xAa"] "0xaa" :=
  c5_fulfilled_case_insensitive ["0xAa"] "0xAA" "0xaa" (by decide)

/-- C10: calling the v1 `Solver.fetchState` with a chain id that is not in
the configured chains map throws (`Chain <id> not found`) instead of
returning a trade list, and leaves the persistent state store exactly as it
was. -/
theorem c10_unknown_chain_throws (chains : List Nat) (states : StatesMap) (chainId : Nat)
    (fetched : ChainState) (inFlight : List String)
    (h : chains.contains chainId = false) :
    fetchStateV1 chains states chainId fetched inFlight =
      (.error ("Chain " ++ toString chainId ++ " not found"), states) := by
  have h' : chainId ∉ chains := by simpa using h
  simp [fetchStateV1, h']

/-- C10 witness: fetching chain 5 when only chains 1 and 2 are configured. -/
theorem c10_witness :
    fetchStateV1 [1, 2] states1 5 destState1 [] =
      (.error ("Chain " ++ toString 5 ++ " not found"), states1) :=
  c10_unknown_chain_throws [1, 2] states1 5 destState1 [] (by decide)

/-- C7: parameter reconciliation in the executor.  When the destination
router returns a stored record with non-zero `srcChainId` and non-zero
sender, the relay call uses the stored `tokenIn`, `tokenOut`, `sender`,
`recipient`, `amountOut`, `srcChainId` and `nonce`; when the record is
unverified or the lookup failed, the trade-carried values are used
unchanged; and every address argument passed to `relayTokens` is
lower-cased (a fixed point of `lowerStr`). -/
theorem c7_parameter_reconciliation (own : String) (trade : Trade)
    (lookupResult : Option SwapRequestParameters) :
    (∀ p, lookupResult = some p → p.srcChainId ≠ 0 → lowerStr p.sender ≠ zeroAddress →
      relayArgsOf own trade (reconcileParams trade lookupResult) =
        ⟨lowerStr own, toRequestId trade.requestId, lowerStr p.sender, lowerStr p.recipient,
          lowerStr p.tokenIn, lowerStr p.tokenOut, p.amountOut, p.srcChainId, p.nonce⟩) ∧
    (∀ p, lookupResult = some p → ¬(p.srcChainId ≠ 0 ∧ lowerStr p.sender ≠ zeroAddress) →
      relayArgsOf own trade (reconcileParams trade lookupResult) =
        relayArgsOf own trade (reconcileParams trade none)) ∧
    (relayArgsOf own trade (reconcileParams trade none) =
      ⟨lowerStr own, toRequestId trade.requestId, lowerStr trade.senderAddr,
        lowerStr trade.recipientAddr, lowerStr trade.tokenInAddr, lowerStr trade.tokenOutAddr,
        trade.swapAmount, trade.srcChainId, trade.nonce⟩) ∧
    (lowerStr (relayArgsOf own trade (reconcileParams trade lookupResult)).solver =
        (relayArgsOf own trade (reconcileParams trade lookupResult)).solver ∧
      lowerStr (relayArgsOf own trade (reconcileParams trade lookupResult)).sender =
        (relayArgsOf own trade (reconcileParams trade lookupResult)).sender ∧
      lowerStr (relayArgsOf own trade (reconcileParams trade lookupResult)).recipient =
        (relayArgsOf own trade (reconcileParams trade lookupResult)).recipient ∧
      lowerStr (relayArgsOf own trade (reconcileParams trade lookupResult)).tokenIn =
        (relayArgsOf own trade (reconcileParams trade lookupResult)).tokenIn ∧
      lowerStr (relayArgsOf own trade (reconcileParams trade lookupResult)).tokenOut =
        (relayArgsOf own trade (reconcileParams trade lookupResult)).tokenOut) := by
  refine ⟨?_, ?_, ?_, ?_⟩
  · intro p hp h1 h2
    subst hp
    simp [reconcileParams, relayArgsOf, if_pos (And.intro h1 h2), lowerStr_idem]
  · intro p hp hn
    subst hp
    simp [reconcileParams, if_neg hn]
  · simp [reconcileParams, relayArgsOf, lowerStr_idem]
  · cases lookupResult with
    | none => simp [reconcileParams, relayArgsOf, lowerStr_idem]
    | some p =>
      by_cases hc : p.srcChainId ≠ 0 ∧ lowerStr p.sender ≠ zeroAddress
      · simp [reconcileParams, relayArgsOf, if_pos hc, lowerStr_idem]
      · simp [reconcileParams, relayArgsOf, if_neg hc, lowerStr_idem]

/-- C7 witness: the verified-record branch evaluated at a concrete stored
record whose values differ from the trade-carried ones. -/
theorem c7_witness :
    relayArgsOf "0xME" trade8 (reconcileParams trade8 (some storedParams7)) =
      ⟨lowerStr "0xME", toRequestId trade8.requestId, lowerStr storedParams7.sender,
        lowerStr storedParams7.recipient, lowerStr storedParams7.tokenIn,
        lowerStr storedParams7.tokenOut, storedParams7.amountOut, storedParams7.srcChainId,
        storedParams7.nonce⟩ :=
  (c7_parameter_reconciliation "0xME" trade8 (some storedParams7)).1 storedParams7 rfl
    (by decide) (by decide)

/-- C9: for every v2 candidate with positive `solverFee`, the estimated net
profit is exactly `max 0 (solverFee - 150000 * gasPrice(dest) -
amountOut * 1000 * 60 / 3600000)` (truncating natural division, as the
bigint source computes it), the per-chain gas-price defaults are 20 gwei
(Ethereum), 30 gwei (Polygon), 0.1 gwei (Arbitrum), 0.001 gwei (Optimism)
and 20 gwei otherwise, and the profit score denotes exactly
`profit / solverFee`. -/
theorem c9_profit_formula (trade : Trade) (transfer : Transfer)
    (h : 0 < transfer.params.solverFee) :
    estimateProfit trade transfer =
      max 0 ((transfer.params.solverFee : Int)
        - 150000 * (getGasPrice (normalizeChainId trade.destChainId) : Int)
        - ((trade.swapAmount * 1000 * 60 / 3600000 : Nat) : Int)) ∧
    getGasPrice 1 = 20000000000 ∧ getGasPrice 137 = 30000000000 ∧
    getGasPrice 42161 = 100000000 ∧ getGasPrice 10 = 1000000 ∧
    (∀ c, c ≠ 1 → c ≠ 137 → c ≠ 42161 → c ≠ 10 → getGasPrice c = 20000000000) ∧
    (calculateProfitScore trade transfer).toRat =
      (estimateProfit trade transfer : ℚ) / (transfer.params.solverFee : ℚ) := by
  refine ⟨?_, rfl, rfl, rfl, rfl, ?_, ?_⟩
  · simp only [estimateProfit, estimateGasCost, estimateOpportunityCost]
    push_cast
    ring_nf
  · intro c h1 h2 h3 h4
    simp [getGasPrice, h1, h2, h3, h4]
  · simp only [calculateProfitScore, if_neg (Nat.pos_iff_ne_zero.mp h), Score.toRat]

/-- C9 witness: the profit formula instantiated at the concrete fixture
trade (destination chain 2, fee `1e15`). -/
theorem c9_witness :
    estimateProfit trade8 transfer1 =
      max 0 ((transfer1.params.solverFee : Int)
        - 150000 * (getGasPrice (normalizeChainId trade8.destChainId) : Int)
        - ((trade8.swapAmount * 1000 * 60 / 3600000 : Nat) : Int)) :=
  (c9_profit_formula trade8 transfer1 (by decide)).1

/-- C8: for every trade not already in flight, the executor inserts its
request id into the in-flight cache with a 30-second TTL as the very first
action for that trade (in particular before any network call, which all
appear later in the trade's trace); when the attempt fails the cache entry
is deleted again and the loop continues with the next trade (the trace and
final cache of the whole list decompose through the rest of the list);
when the attempt succeeds the entry stays in the cache. -/
theorem c8_executor_inflight_discipline (o : Trade → ExecOutcome) (inFlight : List String)
    (t : Trade) (rest : List Trade)
    (h : inFlight.contains t.requestId = false) :
    (∃ body, (processTrade o inFlight t).1 = ExecEvent.setInFlight t.requestId 30 :: body) ∧
    ((executeTradeEvents (o t) t.requestId).2 = false →
      (processTrade o inFlight t).2.contains t.requestId = false) ∧
    ((executeTradeEvents (o t) t.requestId).2 = true →
      (processTrade o inFlight t).2.contains t.requestId = true) ∧
    executeList o inFlight (t :: rest) =
      ((processTrade o inFlight t).1 ++ (executeList o (processTrade o inFlight t).2 rest).1,
        (executeList o (processTrade o inFlight t).2 rest).2) := by
  have hb : ¬ (inFlight.contains t.requestId = true) := by
    rw [h]
    decide
  refine ⟨?_, ?_, ?_, rfl⟩
  · unfold processTrade
    rw [if_neg hb]
    by_cases hs : (executeTradeEvents (o t) t.requestId).2 = true
    · rw [if_pos hs]
      exact ⟨_, rfl⟩
    · rw [if_neg hs]
      exact ⟨_, rfl⟩
  · intro hfail
    unfold processTrade
    rw [if_neg hb, if_neg (by rw [hfail]; decide)]
    exact contains_cacheDel _ _
  · intro hok
    unfold processTrade
    rw [if_neg hb, if_pos hok]
    exact contains_cacheSet _ _

/-- C8 witness: a failing relay at a concrete trade with an empty cache —
the set event heads the trace and the entry is gone afterwards. -/
theorem c8_witness :
    (∃ body, (processTrade (fun _ => ExecOutcome.relayFailed) [] trade8).1 =
      ExecEvent.setInFlight trade8.requestId 30 :: body) ∧
    (processTrade (fun _ => ExecOutcome.relayFailed) [] trade8).2.contains
      trade8.requestId = false := by
  have h := c8_executor_inflight_discipline (fun _ => ExecOutcome.relayFailed) [] trade8 []
    (by decide)
  exact ⟨h.1, h.2.1 (by decide)⟩

/-- C1: the per-tick "clone" `new Map(this.states)` copies only the outer
map; the `ChainState` objects and their `tokenBalances` maps are shared
with the persistent store, and the inventory debit mutates them in place.
Evaluated at a concrete solvable transfer, the persistent store's
destination token balance is 5 before the tick and 1 after
`calculateTrades` returns — for the v1 evaluator and for the v2 commit
pass alike — contradicting the spec's statement that the debit is not
written back to the persistent State Store. -/
theorem c1_persistent_store_mutated :
    balanceOf states1 2 "0xt" = 5 ∧
    (calculateTradesV1 states1 1 []).toOption.map (fun r => balanceOf r.2 2 "0xt") = some 1 ∧
    (calculateTradesV2 (fun _ => true) states1 1 []).toOption.map
      (fun r => balanceOf r.2 2 "0xt") = some 1 := by
  refine ⟨by decide, by decide, by decide⟩

/-- C2: within a single tick, for every destination chain `d` and token
key `tok`, the total `swapAmount` of the emitted trades destined for
`(d, tok)` is bounded by the pre-tick snapshot balance — for the v1
evaluator loop and for the v2 commit pass. -/
theorem c2_tick_sum_le_pretick_balance (states : StatesMap) (chainId : Nat)
    (inFlight : List String) (condOk : Transfer → Bool) (d : Nat) (tok : String)
    (trades1 : List Trade) (s1 : StatesMap) (trades2 : List Trade) (s2 : StatesMap)
    (h1 : (calculateTradesV1 states chainId inFlight).toOption = some (trades1, s1))
    (h2 : (calculateTradesV2 condOk states chainId inFlight).toOption = some (trades2, s2)) :
    sumTrades d tok trades1 ≤ balanceOf states d tok ∧
    sumTrades d tok trades2 ≤ balanceOf states d tok := by
  constructor
  · cases hg : jsGet states chainId with
    | none => simp [calculateTradesV1, hg, Except.toOption] at h1
    | some cs =>
      simp only [calculateTradesV1, hg, Except.toOption] at h1
      injection h1 with h1'
      have htr : trades1 =
          (tickLoopV1 inFlight states (prefilterV1 states cs.transfers)).1 :=
        (congrArg Prod.fst h1').symm
      rw [htr]
      exact tickLoopV1_sum_le inFlight d tok _ states
  · cases hg : jsGet states chainId with
    | none => simp [calculateTradesV2, hg, Except.toOption] at h2
    | some cs =>
      simp only [calculateTradesV2, hg, Except.toOption] at h2
      injection h2 with h2'
      have htr : trades2 =
          (commitPass states
            (List.insertionSort (fun a b => Score.le b.score a.score)
              (collectCandidates condOk inFlight states
                (prefilterV1 states cs.transfers)))).1 :=
        (congrArg Prod.fst h2').symm
      rw [htr]
      exact commitPass_sum_le d tok _ states

/-- C2 witness: the inequality instantiated at the plain concrete scenario
(one trade of 4 against a pre-tick balance of 5, emitted by v1 and v2
alike). -/
theorem c2_witness :
    sumTrades 2 "0xt" [tradeOfTransfer transfer1] ≤ balanceOf states1 2 "0xt" :=
  (c2_tick_sum_le_pretick_balance states1 1 [] (fun _ => true) 2 "0xt"
    [tradeOfTransfer transfer1] states1After [tradeOfTransfer transfer1] states1After
    (by decide) (by decide)).1

/-- C3 counterexample: a source chain may report the same request id twice
(the evaluator never deduplicates, and the in-flight cache is only updated
by the executor, after the tick); with enough destination inventory both
copies pass every check and both the v1 evaluator and the v2 pipeline emit
two trades sharing one request id. -/
theorem c3_counterexample :
    (calculateTradesV1 states3 1 []).toOption.map (fun r => r.1.map Trade.requestId) =
      some ["0xaa", "0xaa"] ∧
    (calculateTradesV2 (fun _ => true) states3 1 []).toOption.map
      (fun r => r.1.map Trade.requestId) = some ["0xaa", "0xaa"] ∧
    ¬ (["0xaa", "0xaa"].Pairwise (fun a b : String => a ≠ b)) := by
  refine ⟨by decide, by decide, ?_⟩
  intro h
  exact (List.pairwise_cons.mp h).1 "0xaa" (by simp) rfl

/-- C3 (amended): provided the transfers reported for the tick's chain
carry pairwise-distinct request ids (which `getUnfulfilledSolverRefunds`
delivers in practice), no two trades emitted within one tick share a
request id — for the v1 evaluator and for the v2 scored evaluator. -/
theorem c3_distinct_request_ids (states : StatesMap) (chainId : Nat)
    (inFlight : List String) (condOk : Transfer → Bool)
    (hids : ∀ cs : ChainState, jsGet states chainId = some cs →
      (cs.transfers.map Transfer.requestId).Pairwise (· ≠ ·)) :
    (∀ trades s1, (calculateTradesV1 states chainId inFlight).toOption = some (trades, s1) →
      (trades.map Trade.requestId).Pairwise (· ≠ ·)) ∧
    (∀ trades s2,
      (calculateTradesV2 condOk states chainId inFlight).toOption = some (trades, s2) →
      (trades.map Trade.requestId).Pairwise (· ≠ ·)) := by
  constructor
  · intro trades s1 h
    cases hg : jsGet states chainId with
    | none => simp [calculateTradesV1, hg, Except.toOption] at h
    | some cs =>
      simp only [calculateTradesV1, hg, Except.toOption] at h
      injection h with h'
      have htr : trades =
          (tickLoopV1 inFlight states (prefilterV1 states cs.transfers)).1 :=
        (congrArg Prod.fst h').symm
      rw [htr]
      have hsub1 := tickLoopV1_ids_sublist inFlight (prefilterV1 states cs.transfers) states
      have hsub2 : ((prefilterV1 states cs.transfers).map Transfer.requestId).Sublist
          (cs.transfers.map Transfer.requestId) :=
        (List.filter_sublist _).map _
      exact List.Pairwise.sublist (hsub1.trans hsub2) (hids cs hg)
  · intro trades s2 h
    cases hg : jsGet states chainId with
    | none => simp [calculateTradesV2, hg, Except.toOption] at h
    | some cs =>
      simp only [calculateTradesV2, hg, Except.toOption] at h
      injection h with h'
      have htr : trades =
          (commitPass states
            (List.insertionSort (fun a b => Score.le b.score a.score)
              (collectCandidates condOk inFlight states
                (prefilterV1 states cs.transfers)))).1 :=
        (congrArg Prod.fst h').symm
      rw [htr]
      have hcand : ((collectCandidates condOk inFlight states
          (prefilterV1 states cs.transfers)).map (fun c => c.trade.requestId)).Sublist
          (cs.transfers.map Transfer.requestId) :=
        (collectCandidates_ids_sublist condOk inFlight states _).trans
          ((List.filter_sublist _).map _)
      have hpair : ((collectCandidates condOk inFlight states
          (prefilterV1 states cs.transfers)).map (fun c => c.trade.requestId)).Pairwise
          (· ≠ ·) :=
        List.Pairwise.sublist hcand (hids cs hg)
      have hperm : (List.insertionSort (fun a b => Score.le b.score a.score)
          (collectCandidates condOk inFlight states (prefilterV1 states cs.transfers))).Perm
          (collectCandidates condOk inFlight states (prefilterV1 states cs.transfers)) :=
        List.perm_insertionSort _ _
      have hpairSorted : ((List.insertionSort (fun a b => Score.le b.score a.score)
          (collectCandidates condOk inFlight states
            (prefilterV1 states cs.transfers))).map (fun c => c.trade.requestId)).Pairwise
          (· ≠ ·) :=
        (List.Perm.pairwise_iff (fun hxy => Ne.symm hxy) (hperm.map _)).mpr hpair
      exact List.Pairwise.sublist (commitPass_ids_sublist _ states) hpairSorted

/-- C3 witness: the amended statement at the plain single-transfer
scenario. -/
theorem c3_witness :
    (([tradeOfTransfer transfer1]).map Trade.requestId).Pairwise (· ≠ ·) := by
  have h := (c3_distinct_request_ids states1 1 [] (fun _ => true) ?_).1
    [tradeOfTransfer transfer1] states1After (by decide)
  · exact h
  · intro cs hcs
    have h0 : jsGet states1 1 = some srcState1 := by decide
    rw [h0] at hcs
    injection hcs with hcs'
    rw [← hcs']
    decide

/-- C6 counterexample: a transfer passing every other v1 check whose
destination token balance is present and exactly equal to `amountOut` is
*not* emitted when that common value is 0 — the `tokenBalance === 0` guard
fires first and the tick returns no trade (and no debit). -/
theorem c6_counterexample :
    jsGet destState6.tokenBalances (lowerStr transfer6.params.tokenOut) =
      some transfer6.params.amountOut ∧
    transfer6.params.executed = false ∧
    destState6.nativeBalance ≠ 0 ∧
    1 ≤ transfer6.params.solverFee ∧
    jsGet states6 (normalizeChainId transfer6.params.dstChainId) = some destState6 ∧
    fulfilledCheck destState6.alreadyFulfilled transfer6.requestId = false ∧
    (calculateTradesV1 states6 1 []).toOption = some ([], states6) := by
  refine ⟨by decide, by decide, by decide, by decide, by decide, by decide, by decide⟩

/-- C6 (amended): for every transfer that passes all other v1 checks and
whose destination token balance is present and exactly equal to a
*positive* `amountOut`, the trade is emitted, the debit leaves the cloned
(and shared) balance at 0, the tick loop continues with the debited state,
and no trade for the same destination chain and token is emitted in the
remainder of the tick. -/
theorem c6_exact_balance_emits_then_blocks (states : StatesMap) (inFlight : List String)
    (t : Transfer) (rest : List Transfer) (ds : ChainState)
    (hflight : inFlight.contains t.requestId = false)
    (hexec : t.params.executed = false)
    (hg : jsGet states (normalizeChainId t.params.dstChainId) = some ds)
    (hful : fulfilledCheck ds.alreadyFulfilled t.requestId = false)
    (hnat : ds.nativeBalance ≠ 0)
    (htb : jsGet ds.tokenBalances (lowerStr t.params.tokenOut) = some t.params.amountOut)
    (hpos : 0 < t.params.amountOut)
    (hfee : 1 ≤ t.params.solverFee) :
    solveV1 t states =
      (some (tradeOfTransfer t),
        jsSet states (normalizeChainId t.params.dstChainId)
          (debitState ds (lowerStr t.params.tokenOut) 0)) ∧
    balanceOf
      (jsSet states (normalizeChainId t.params.dstChainId)
        (debitState ds (lowerStr t.params.tokenOut) 0))
      (normalizeChainId t.params.dstChainId) (lowerStr t.params.tokenOut) = 0 ∧
    (tickLoopV1 inFlight states (t :: rest)).1 =
      tradeOfTransfer t ::
        (tickLoopV1 inFlight
          (jsSet states (normalizeChainId t.params.dstChainId)
            (debitState ds (lowerStr t.params.tokenOut) 0)) rest).1 ∧
    ∀ tr ∈ (tickLoopV1 inFlight
        (jsSet states (normalizeChainId t.params.dstChainId)
          (debitState ds (lowerStr t.params.tokenOut) 0)) rest).1,
      ¬(normalizeChainId tr.destChainId = normalizeChainId t.params.dstChainId ∧
        tr.tokenOutAddr = lowerStr t.params.tokenOut) := by
  have hexec' : ¬ t.params.executed := by rw [hexec]; exact Bool.false_ne_true
  have hful' : ¬ fulfilledCheck ds.alreadyFulfilled t.requestId := by
    rw [hful]
    exact Bool.false_ne_true
  have hguard : ¬ (t.params.amountOut = 0 ∨ t.params.amountOut < t.params.amountOut) := by
    rintro (h0 | hlt)
    · omega
    · omega
  have hfee' : ¬ t.params.solverFee < 1 := by omega
  have hsolve : solveV1 t states =
      (some (tradeOfTransfer t),
        jsSet states (normalizeChainId t.params.dstChainId)
          (debitState ds (lowerStr t.params.tokenOut) 0)) := by
    have hz : t.params.amountOut - t.params.amountOut = 0 := Nat.sub_self _
    simp only [solveV1, hg, hexec', hful', hnat, htb, hguard, hfee', hz, if_neg, if_pos,
      ite_false, ite_true]
    simp [hexec', hful', hnat, hguard, hfee', hz]
  refine ⟨hsolve, ?_, ?_, ?_⟩
  · rw [balanceOf_debit states _ ds _ _ hg, if_pos ⟨rfl, rfl⟩]
  · have hf' : ¬ inFlight.contains t.requestId = true := by
      rw [hflight]
      exact Bool.false_ne_true
    simp only [tickLoopV1, if_neg hf', hsolve]
  · intro tr htr
    refine tickLoopV1_zero_balance inFlight _ _ rest _ ?_ tr htr
    rw [balanceOf_debit states _ ds _ _ hg, if_pos ⟨rfl, rfl⟩]

/-- C6 witness: the amended statement at the concrete boundary scenario —
balance 4 = `amountOut` 4, a second positive candidate for the same token
behind it: the first is emitted, the balance drops to 0 and the second is
skipped (the whole tick emits exactly the one trade). -/
theorem c6_witness :
    solveV1 transfer1 states6b =
      (some (tradeOfTransfer transfer1),
        jsSet states6b (normalizeChainId transfer1.params.dstChainId)
          (debitState destState6b (lowerStr transfer1.params.tokenOut) 0)) ∧
    balanceOf
      (jsSet states6b (normalizeChainId transfer1.params.dstChainId)
        (debitState destState6b (lowerStr transfer1.params.tokenOut) 0))
      (normalizeChainId transfer1.params.dstChainId)
      (lowerStr transfer1.params.tokenOut) = 0 := by
  have h := c6_exact_balance_emits_then_blocks states6b [] transfer1 [transfer6b] destState6b
    (by decide) (by decide) (by decide) (by decide) (by decide) (by decide) (by decide)
    (by decide)
  exact ⟨h.1, h.2.1⟩

end NotOnlySwaps
